import Mathlib

/-!
Shallow embedding of the SignASL scraper core
(`scraper/signasl_scraper.py` and `scraper/video_downloader.py`).

Python strings are modelled as lists of characters, the flat cache
directory as the list of file names it holds, the parsed HTML page as a
forest of elements, and one streaming network request as an oracle
mapping a URL to its outcome.
-/

/-- Python strings, modelled as lists of characters. -/
abbrev Str := List Char

/-- Characters removed by Python str.strip with no argument: ASCII whitespace. -/
def isSpaceChar (c : Char) : Bool :=
  decide (c.toNat = 32 ∨ c.toNat = 9 ∨ c.toNat = 10 ∨ c.toNat = 13 ∨
    c.toNat = 11 ∨ c.toNat = 12)

/-- Python str.lower, character-wise on the ASCII range. -/
def pyLower (s : Str) : Str := s.map Char.toLower

/-- Python str.strip: drop leading and trailing whitespace. -/
def pyStrip (s : Str) : Str :=
  ((s.dropWhile isSpaceChar).reverse.dropWhile isSpaceChar).reverse

/-- Python str.replace for single-character patterns. -/
def pyReplace (a b : Char) (s : Str) : Str :=
  s.map fun c => if c = a then b else c

/-- Python str.endswith. -/
def pyEndsWith (pat s : Str) : Bool := pat.isSuffixOf s

/-- SignASLScraper normalization of a word for the page URL:
word.lower().strip().replace(' ', '-'). -/
def normalize_word (word : Str) : Str :=
  pyReplace ' ' '-' (pyStrip (pyLower word))

/-- An element of the parsed HTML document: its tag name, its optional src
attribute and its children. Other attributes play no part in the embedded
operations. -/
inductive Node where
  | elem (tag : Str) (src : Option Str) (children : List Node)

/-- The tag name of an element. -/
def Node.tagOf : Node → Str
  | .elem t _ _ => t

/-- The src attribute of an element, as source.get('src') returns it. -/
def Node.srcAttr : Node → Option Str
  | .elem _ s _ => s

mutual
/-- BeautifulSoup find_all on one element: matches collected in document
order, the element itself first and then its descendants. -/
def find_all (tag : Str) : Node → List Node
  | .elem t s cs => (if t = tag then [Node.elem t s cs] else []) ++ find_all_list tag cs
/-- BeautifulSoup find_all over a forest of elements, in document order. -/
def find_all_list (tag : Str) : List Node → List Node
  | [] => []
  | n :: ns => find_all tag n ++ find_all_list tag ns
end

/-- Outcome of SignASLScraper._fetch_page: a parsed document, None on a
404 response, or a raised requests error on any other failure. -/
inductive FetchResult where
  | ok (doc : List Node)
  | notFound
  | error

/-- SignASLScraper.word_exists as a function of the fetch outcome: false on
a 404, false on any raised error (the surrounding except clause catches
every exception), and otherwise true exactly when the page holds at least
one video element. -/
def word_exists (fr : FetchResult) : Bool :=
  match fr with
  | .ok doc => decide (0 < (find_all_list "video".data doc).length)
  | .notFound => false
  | .error => false

/-- The loop of get_video_urls over the source elements found: keep a src
value when it is truthy and ends in .mp4. -/
def collect_sources : List Node → List Str
  | [] => []
  | n :: rest =>
    match Node.srcAttr n with
    | some src =>
      if (!src.isEmpty) && pyEndsWith ".mp4".data src then
        src :: collect_sources rest
      else
        collect_sources rest
    | none => collect_sources rest

/-- The URL extraction step of get_video_urls on a parsed document. -/
def video_urls_of_doc (doc : List Node) : List Str :=
  collect_sources (find_all_list "source".data doc)

/-- SignASLScraper.get_video_urls as a function of the fetch outcome; a 404
yields the empty list, a raised request error propagates to the caller. -/
def get_video_urls (fr : FetchResult) : Except Unit (List Str) :=
  match fr with
  | .ok doc => .ok (video_urls_of_doc doc)
  | .notFound => .ok []
  | .error => .error ()

/-- The URL extraction as the spec words it: the src values of the source
elements of the document, in document order, kept exactly when they end in
.mp4, duplicates preserved. -/
def spec_extract_urls (doc : List Node) : List Str :=
  ((find_all_list "source".data doc).filterMap Node.srcAttr).filter
    (pyEndsWith ".mp4".data)

/-- Hex digit characters 0123456789abcdef as a hexdigest produces them. -/
def hexDigitChar (n : Nat) : Char :=
  if n < 10 then Char.ofNat (48 + n) else Char.ofNat (87 + n)

/-- Fixed-width big-endian hex rendering of a number. -/
def hexChars : Nat → Nat → List Char
  | 0, _ => []
  | w + 1, v => hexChars w (v / 16) ++ [hexDigitChar (v % 16)]

/-- A character of the hexdigest alphabet. -/
def isHexDigitChar (c : Char) : Bool :=
  decide ((48 ≤ c.toNat ∧ c.toNat ≤ 57) ∨ (97 ≤ c.toNat ∧ c.toNat ≤ 102))

/-- Modelled from the spec: hashlib.md5(video_url.encode()).hexdigest()[:8],
the first 8 hexdigest characters of the library digest of the raw URL
string. The md5 primitive lives in the Python standard library, outside
this repository, and the spec asks only for a deterministic fixed-width
hash with no random seed, so it is modelled as a deterministic 8-character
hex digest of the string contents. -/
def md5hex8 (s : Str) : Str :=
  hexChars 8 (s.foldl (fun a c => (a * 131 + c.toNat) % (16 ^ 8)) 5381)

/-- The safe word of VideoDownloader._get_cache_filename:
word.lower().replace(' ', '_').replace('-', '_'). Note there is no strip
here, unlike the scraper normalization. -/
def safe_word (word : Str) : Str :=
  pyReplace '-' '_' (pyReplace ' ' '_' (pyLower word))

/-- VideoDownloader._get_cache_filename: the safe word, an underscore, the
8-character URL hash and the fixed .mp4 suffix. -/
def get_cache_filename (word url : Str) : Str :=
  safe_word word ++ ['_'] ++ md5hex8 url ++ ".mp4".data

/-- The default cache directory as a path prefix of str(cache_path). -/
def cache_dir_path : Str := "cache/".data

/-- VideoDownloader._get_cache_path as a string: cache_dir / filename. -/
def get_cache_path (word url : Str) : Str :=
  cache_dir_path ++ get_cache_filename word url

/-- The flat cache directory, modelled as the list of file names it holds. -/
abbrev Fs := List Str

/-- Path.exists for a cache file name. -/
def fsHas (fs : Fs) (f : Str) : Bool := decide (f ∈ fs)

/-- Writing a file: the name appears when absent, an existing file is
overwritten in place. -/
def fsWrite (fs : Fs) (f : Str) : Fs := if f ∈ fs then fs else fs ++ [f]

/-- Path.unlink: the name disappears from the directory. -/
def fsRemove (fs : Fs) (f : Str) : Fs := fs.filter fun g => decide (g ≠ f)

/-- Outcome of one streaming GET of a video URL: success, a failure raised
before any byte reaches the destination (the request call or
raise_for_status), or a failure in mid stream after a partial write. -/
inductive NetOutcome where
  | success
  | failEarly
  | failMid
deriving DecidableEq

/-- Result of one download_video call: the returned optional path, the
cache directory afterwards, and how many network transfers were made. -/
structure DownloadResult where
  result : Option Str
  fs : Fs
  requests : Nat
deriving DecidableEq

/-- VideoDownloader.download_video over the directory state, with the
network as an oracle mapping each URL to the outcome of one streaming
request. A cached file short-circuits unless force is set; on any request
failure the except clause removes the destination when it exists and the
call returns None. -/
def download_video (net : Str → NetOutcome) (word url : Str) (force : Bool)
    (fs : Fs) : DownloadResult :=
  let fname := get_cache_filename word url
  if fsHas fs fname && !force then
    { result := some (cache_dir_path ++ fname), fs := fs, requests := 0 }
  else
    match net url with
    | .success =>
      { result := some (cache_dir_path ++ fname), fs := fsWrite fs fname, requests := 1 }
    | .failEarly =>
      { result := none, fs := fsRemove fs fname, requests := 1 }
    | .failMid =>
      { result := none, fs := fsRemove (fsWrite fs fname) fname, requests := 1 }

/-- VideoDownloader.download_all_videos: each URL in turn through
download_video, collecting the successful paths in order; also returns the
directory afterwards and the total number of transfers. -/
def download_all_videos (net : Str → NetOutcome) (word : Str)
    (video_urls : List Str) (force : Bool) (fs : Fs) : List Str × Fs × Nat :=
  match video_urls with
  | [] => ([], fs, 0)
  | u :: rest =>
    let r := download_video net word u force fs
    let tail := download_all_videos net word rest force r.fs
    match r.result with
    | some p => (p :: tail.1, tail.2.1, r.requests + tail.2.2)
    | none => (tail.1, tail.2.1, r.requests + tail.2.2)

/-- The per-URL results of applying download_video to each URL in turn,
with the directory state threaded left to right. -/
def download_results (net : Str → NetOutcome) (word : Str) (force : Bool) :
    List Str → Fs → List (Option Str)
  | [], _ => []
  | u :: rest, fs =>
    (download_video net word u force fs).result ::
      download_results net word force rest (download_video net word u force fs).fs

/-- A directory entry matches the glob pattern safe_word_*.mp4: the word
part plus underscore in front, the .mp4 suffix at the end, and room for
the star in between. -/
def matchesWordGlob (word : Str) (fname : Str) : Bool :=
  (safe_word word ++ ['_']).isPrefixOf fname && pyEndsWith ".mp4".data fname &&
    decide ((safe_word word).length + 5 ≤ fname.length)

/-- A directory entry matches the glob pattern *.mp4. -/
def matchesMp4Glob (fname : Str) : Bool := pyEndsWith ".mp4".data fname

/-- VideoDownloader.get_cached_videos: the directory entries matching the
word glob, as full paths. -/
def get_cached_videos (word : Str) (fs : Fs) : List Str :=
  (fs.filter (matchesWordGlob word)).map fun f => cache_dir_path ++ f

/-- The snapshot of files clear_cache selects: Python `if word:` sends both
None and the empty word to the clear-all branch, any other word to its
scoped glob. -/
def clear_targets (word : Option Str) (fs : Fs) : List Str :=
  match word with
  | some w => if w.isEmpty then fs.filter matchesMp4Glob else fs.filter (matchesWordGlob w)
  | none => fs.filter matchesMp4Glob

/-- The deletion loop of clear_cache: each selected file is unlinked in
turn; a failure (the oracle answers false) is logged and skipped, a
success removes the file and is counted. -/
def clear_loop (deletable : Str → Bool) : List Str → Fs → Nat → Nat × Fs
  | [], fs, count => (count, fs)
  | f :: rest, fs, count =>
    if deletable f then clear_loop deletable rest (fsRemove fs f) (count + 1)
    else clear_loop deletable rest fs count

/-- VideoDownloader.clear_cache: the count of files actually deleted and
the directory afterwards, with per-file deletion failures given by an
oracle. -/
def clear_cache (deletable : Str → Bool) (word : Option Str) (fs : Fs) : Nat × Fs :=
  clear_loop deletable (clear_targets word fs) fs 0

/-- Packing a valid codepoint and unpacking it again is the identity. -/
theorem char_toNat_ofNat (n : Nat) (h : n.isValidChar) :
    (Char.ofNat n).toNat = n := by
  rw [Char.ofNat, dif_pos h]
  rfl

/-- Lower-casing a character neither creates nor destroys whitespace. -/
theorem isSpaceChar_toLower (c : Char) :
    isSpaceChar c.toLower = isSpaceChar c := by
  by_cases h : c.toNat ≥ 65 ∧ c.toNat ≤ 90
  · have hv : (c.toNat + 32).isValidChar := Or.inl (by omega)
    simp only [Char.toLower, if_pos h, isSpaceChar, char_toNat_ofNat _ hv,
      decide_eq_decide]
    omega
  · simp only [Char.toLower, if_neg h]

/-- Python strip commutes with character-wise lower-casing. -/
theorem pyStrip_pyLower (s : Str) : pyStrip (pyLower s) = pyLower (pyStrip s) := by
  have hcomp : isSpaceChar ∘ Char.toLower = isSpaceChar := funext isSpaceChar_toLower
  unfold pyStrip pyLower
  rw [List.dropWhile_map, hcomp, ← List.map_reverse, List.dropWhile_map, hcomp,
    ← List.map_reverse]

/-- Folding spaces to underscores and then hyphens to underscores is the
same as folding spaces to hyphens and then hyphens to underscores. -/
theorem pyReplace_fold (l : Str) :
    pyReplace '-' '_' (pyReplace ' ' '_' l) = pyReplace '-' '_' (pyReplace ' ' '-' l) := by
  simp only [pyReplace, List.map_map]
  refine List.map_congr_left fun c _ => ?_
  by_cases h1 : c = ' ' <;> by_cases h2 : c = '-' <;> simp [Function.comp, h1, h2]

/-- On a word with no surrounding whitespace the cache sanitization factors
through the scraper normalization. -/
theorem safe_word_eq_of_stripped (w : Str) (hw : pyStrip w = w) :
    safe_word w = pyReplace '-' '_' (normalize_word w) := by
  unfold safe_word normalize_word
  rw [pyStrip_pyLower, hw, pyReplace_fold]

/-- Fixed-width hex rendering has exactly the requested width. -/
theorem hexChars_length (w v : Nat) : (hexChars w v).length = w := by
  induction w generalizing v with
  | zero => rfl
  | succ w ih => simp [hexChars, ih]

/-- Every character the hex rendering emits is a hexdigest character. -/
theorem hexChars_all_hex (w v : Nat) :
    ∀ c ∈ hexChars w v, isHexDigitChar c = true := by
  induction w generalizing v with
  | zero => intro c hc; cases hc
  | succ w ih =>
    intro c hc
    rw [hexChars, List.mem_append] at hc
    rcases hc with hc | hc
    · exact ih _ c hc
    · have hd : ∀ m, m < 16 → isHexDigitChar (hexDigitChar m) = true := by decide
      rw [List.mem_singleton] at hc
      exact hc ▸ hd _ (Nat.mod_lt _ (by omega))

/-- The modelled URL digest is 8 characters wide. -/
theorem md5hex8_length (s : Str) : (md5hex8 s).length = 8 :=
  hexChars_length 8 _

/-- A removed file is absent. -/
theorem fsHas_fsRemove (fs : Fs) (f : Str) : fsHas (fsRemove fs f) f = false := by
  simp [fsHas, fsRemove]

/-- A written file is present. -/
theorem fsHas_fsWrite (fs : Fs) (f : Str) : fsHas (fsWrite fs f) f = true := by
  simp only [fsHas, fsWrite]
  split <;> simp_all

/-- Any failing download attempt returns None and leaves no file at the
cache name, whatever was there before. -/
theorem download_video_fail (net : Str → NetOutcome) (word url : Str)
    (force : Bool) (fs : Fs)
    (hattempt : ¬(fsHas fs (get_cache_filename word url) = true ∧ force = false))
    (hfail : net url ≠ NetOutcome.success) :
    (download_video net word url force fs).result = none ∧
      fsHas (download_video net word url force fs).fs
        (get_cache_filename word url) = false := by
  have hcond : (fsHas fs (get_cache_filename word url) && !force) = false := by
    cases force with
    | true => simp
    | false =>
      cases hfs : fsHas fs (get_cache_filename word url) with
      | false => simp
      | true => exact absurd ⟨hfs, rfl⟩ hattempt
  unfold download_video
  simp only [hcond, Bool.false_eq_true, if_false]
  cases hnet : net url with
  | success => exact absurd hnet hfail
  | failEarly => exact ⟨rfl, fsHas_fsRemove _ _⟩
  | failMid => exact ⟨rfl, fsHas_fsRemove _ _⟩

/-- A string ending in .mp4 is not empty, so the Python truthiness test on
src changes nothing once the suffix test holds. -/
theorem pyEndsWith_mp4_not_empty (s : Str) (h : pyEndsWith ".mp4".data s = true) :
    s.isEmpty = false := by
  cases s with
  | nil => exact absurd h (by decide)
  | cons a as => rfl

/-- The extraction loop keeps exactly the src values ending in .mp4, in
order, duplicates preserved. -/
theorem collect_sources_eq (l : List Node) :
    collect_sources l = (l.filterMap Node.srcAttr).filter (pyEndsWith ".mp4".data) := by
  induction l with
  | nil => rfl
  | cons n rest ih =>
    cases hs : Node.srcAttr n with
    | none => simp [collect_sources, hs, List.filterMap_cons, ih]
    | some src =>
      cases hm : pyEndsWith ".mp4".data src with
      | false =>
        simp [collect_sources, hs, List.filterMap_cons, List.filter_cons, hm, ih]
      | true =>
        have hne := pyEndsWith_mp4_not_empty src hm
        simp [collect_sources, hs, List.filterMap_cons, List.filter_cons, hm, hne, ih]

/-- The batch loop visits every URL: one result entry per input URL. -/
theorem download_results_length (net : Str → NetOutcome) (word : Str)
    (force : Bool) (urls : List Str) (fs : Fs) :
    (download_results net word force urls fs).length = urls.length := by
  induction urls generalizing fs with
  | nil => rfl
  | cons u rest ih => simp [download_results, ih]

/-- The batch returns exactly the successful per-URL results, in order. -/
theorem download_all_videos_eq (net : Str → NetOutcome) (word : Str)
    (force : Bool) (urls : List Str) (fs : Fs) :
    (download_all_videos net word urls force fs).1 =
      (download_results net word force urls fs).filterMap id := by
  induction urls generalizing fs with
  | nil => rfl
  | cons u rest ih =>
    rw [download_all_videos, download_results, List.filterMap_cons]
    cases hr : (download_video net word u force fs).result with
    | none => simp [hr, ih]
    | some p => simp [hr, ih]

/-- The deletion loop counts exactly the deletable files of its snapshot. -/
theorem clear_loop_count (deletable : Str → Bool) (files : List Str)
    (fs : Fs) (n : Nat) :
    (clear_loop deletable files fs n).1 = n + (files.filter deletable).length := by
  induction files generalizing fs n with
  | nil => simp [clear_loop]
  | cons f rest ih =>
    cases hd : deletable f with
    | false => simp [clear_loop, List.filter_cons, hd, ih]
    | true =>
      simp [clear_loop, List.filter_cons, hd, ih]
      omega

/-- The deletion loop removes exactly the deletable files of its snapshot
and touches nothing else. -/
theorem clear_loop_fs (deletable : Str → Bool) (files : List Str)
    (fs : Fs) (n : Nat) :
    (clear_loop deletable files fs n).2 =
      fs.filter fun g => !(decide (g ∈ files) && deletable g) := by
  induction files generalizing fs n with
  | nil => simp [clear_loop]
  | cons f rest ih =>
    rw [clear_loop]
    cases hd : deletable f with
    | false =>
      rw [if_neg (by simp [hd]), ih]
      refine List.filter_congr fun g _ => ?_
      by_cases hg : g = f <;> simp [hg, hd]
    | true =>
      rw [if_pos rfl, ih, fsRemove, List.filter_filter]
      refine List.filter_congr fun g _ => ?_
      by_cases hg : g = f <;> simp [hg, hd]

/-- C1 counterexample: the words " hello" and "hello" normalize to the
same string, because normalize_word strips surrounding whitespace, yet the
cache filename sanitization never strips, so the two words get different
cache filenames for the same URL. -/
theorem C1_counterexample :
    normalize_word " hello".data = normalize_word "hello".data ∧
    get_cache_filename " hello".data "u".data ≠
      get_cache_filename "hello".data "u".data := by
  constructor
  · decide
  · decide

/-- C1 (amended): for every two words carrying no leading or trailing
whitespace that normalize to the same string, and every URL, the cache
filenames agree; words that normalize identically are the same cache
key provided neither needs stripping. -/
theorem C1_amended_same_key (w1 w2 u : Str)
    (h1 : pyStrip w1 = w1) (h2 : pyStrip w2 = w2)
    (hn : normalize_word w1 = normalize_word w2) :
    get_cache_filename w1 u = get_cache_filename w2 u := by
  have hsw : safe_word w1 = safe_word w2 := by
    rw [safe_word_eq_of_stripped w1 h1, safe_word_eq_of_stripped w2 h2, hn]
  unfold get_cache_filename
  rw [hsw]

/-- Witness for C1 (amended) at the words "Hello World" and "hello-world"
with the URL "u". -/
theorem C1_amended_same_key_witness :
    pyStrip "Hello World".data = "Hello World".data ∧
    pyStrip "hello-world".data = "hello-world".data ∧
    normalize_word "Hello World".data = normalize_word "hello-world".data ∧
    get_cache_filename "Hello World".data "u".data =
      get_cache_filename "hello-world".data "u".data :=
  ⟨by decide, by decide, by decide,
    C1_amended_same_key "Hello World".data "hello-world".data "u".data
      (by decide) (by decide) (by decide)⟩

/-- C2: whenever download_video actually attempts a transfer (not served
from cache) and the streaming request fails in any way, the call returns
None and the cache name is absent from the directory afterwards: the
partial destination file is cleaned up and no exception escapes (the
embedding is a total function whose failure branch is the caught
RequestException branch of the source). -/
theorem C2_download_failure_cleanup (net : Str → NetOutcome) (word url : Str)
    (force : Bool) (fs : Fs)
    (hattempt : ¬(fsHas fs (get_cache_filename word url) = true ∧ force = false))
    (hfail : net url ≠ NetOutcome.success) :
    (download_video net word url force fs).result = none ∧
      fsHas (download_video net word url force fs).fs
        (get_cache_filename word url) = false :=
  download_video_fail net word url force fs hattempt hfail

/-- Witness for C2: a mid-stream failure on an empty cache. -/
theorem C2_download_failure_cleanup_witness :
    ¬(fsHas [] (get_cache_filename "w".data "u".data) = true ∧ false = false) ∧
    ((download_video (fun _ => NetOutcome.failMid) "w".data "u".data false []).result = none ∧
      fsHas (download_video (fun _ => NetOutcome.failMid) "w".data "u".data false []).fs
        (get_cache_filename "w".data "u".data) = false) :=
  ⟨by decide,
    C2_download_failure_cleanup (fun _ => NetOutcome.failMid) "w".data "u".data
      false [] (by decide) (by decide)⟩

/-- C9: a forced re-download of an already-cached (word, url) whose
transfer fails deletes the previously valid cached file: the call returns
None and the cache name that existed before the call is gone afterwards;
the operation is not atomic and does not restore the old state. -/
theorem C9_forced_redownload_failure (net : Str → NetOutcome) (word url : Str)
    (fs : Fs)
    (hcached : fsHas fs (get_cache_filename word url) = true)
    (hfail : net url ≠ NetOutcome.success) :
    (download_video net word url true fs).result = none ∧
      fsHas (download_video net word url true fs).fs
        (get_cache_filename word url) = false :=
  download_video_fail net word url true fs
    (fun h => absurd h.2 (by decide)) hfail

/-- Witness for C9: the file is cached, the forced transfer fails before
any byte arrives, and the old cache entry is deleted anyway. -/
theorem C9_forced_redownload_failure_witness :
    fsHas [get_cache_filename "w".data "u".data]
      (get_cache_filename "w".data "u".data) = true ∧
    ((download_video (fun _ => NetOutcome.failEarly) "w".data "u".data true
        [get_cache_filename "w".data "u".data]).result = none ∧
      fsHas (download_video (fun _ => NetOutcome.failEarly) "w".data "u".data true
        [get_cache_filename "w".data "u".data]).fs
        (get_cache_filename "w".data "u".data) = false) :=
  ⟨by decide,
    C9_forced_redownload_failure (fun _ => NetOutcome.failEarly) "w".data "u".data
      [get_cache_filename "w".data "u".data] (by decide) (by decide)⟩

/-- C3: download is idempotent. A cached name with force false is returned
as the existing path with zero network requests and an unchanged
directory; and two successive calls on an uncached name whose transfer
succeeds make exactly one transfer in total, the second call making none
and returning the same path. -/
theorem C3_download_idempotent (net : Str → NetOutcome) (word url : Str) (fs : Fs) :
    (fsHas fs (get_cache_filename word url) = true →
      download_video net word url false fs =
        { result := some (cache_dir_path ++ get_cache_filename word url),
          fs := fs, requests := 0 }) ∧
    (net url = NetOutcome.success →
      fsHas fs (get_cache_filename word url) = false →
      (download_video net word url false fs).requests = 1 ∧
      (download_video net word url false fs).result =
        some (cache_dir_path ++ get_cache_filename word url) ∧
      (download_video net word url false
        ((download_video net word url false fs).fs)).requests = 0 ∧
      (download_video net word url false
        ((download_video net word url false fs).fs)).result =
        (download_video net word url false fs).result) := by
  constructor
  · intro hcached
    unfold download_video
    simp [hcached]
  · intro hnet hmiss
    have hfirst : download_video net word url false fs =
        { result := some (cache_dir_path ++ get_cache_filename word url),
          fs := fsWrite fs (get_cache_filename word url), requests := 1 } := by
      unfold download_video
      simp [hmiss, hnet]
    have hsecond : download_video net word url false
        (fsWrite fs (get_cache_filename word url)) =
        { result := some (cache_dir_path ++ get_cache_filename word url),
          fs := fsWrite fs (get_cache_filename word url), requests := 0 } := by
      unfold download_video
      simp [fsHas_fsWrite]
    rw [hfirst]
    exact ⟨rfl, rfl, by rw [hsecond], by rw [hsecond]⟩

/-- Witness for C3 at a concrete word, URL and network: the cached branch
on a one-file directory, and the two-call scenario from an empty one. -/
theorem C3_download_idempotent_witness :
    fsHas [get_cache_filename "hi".data "u".data]
      (get_cache_filename "hi".data "u".data) = true ∧
    download_video (fun _ => NetOutcome.success) "hi".data "u".data false
        [get_cache_filename "hi".data "u".data] =
      { result := some (cache_dir_path ++ get_cache_filename "hi".data "u".data),
        fs := [get_cache_filename "hi".data "u".data], requests := 0 } ∧
    ((download_video (fun _ => NetOutcome.success) "hi".data "u".data false []).requests = 1 ∧
      (download_video (fun _ => NetOutcome.success) "hi".data "u".data false []).result =
        some (cache_dir_path ++ get_cache_filename "hi".data "u".data) ∧
      (download_video (fun _ => NetOutcome.success) "hi".data "u".data false
        ((download_video (fun _ => NetOutcome.success) "hi".data "u".data false []).fs)).requests = 0 ∧
      (download_video (fun _ => NetOutcome.success) "hi".data "u".data false
        ((download_video (fun _ => NetOutcome.success) "hi".data "u".data false []).fs)).result =
        (download_video (fun _ => NetOutcome.success) "hi".data "u".data false []).result) :=
  ⟨by decide,
    (C3_download_idempotent (fun _ => NetOutcome.success) "hi".data "u".data
      [get_cache_filename "hi".data "u".data]).1 (by decide),
    (C3_download_idempotent (fun _ => NetOutcome.success) "hi".data "u".data []).2
      rfl (by decide)⟩

/-- C4: word_exists is false on a 404, false on any retrieval error (no
exception escapes, the embedding being total), and on a fetched document
it is true exactly when at least one video element is present; and a
document holding a video element but no source whose src ends in .mp4
makes word_exists true while get_video_urls yields the empty list. -/
theorem C4_word_exists (doc : List Node) :
    word_exists FetchResult.notFound = false ∧
    word_exists FetchResult.error = false ∧
    (word_exists (FetchResult.ok doc) = true ↔
      find_all_list "video".data doc ≠ []) ∧
    (find_all_list "video".data doc ≠ [] →
      (∀ n ∈ find_all_list "source".data doc,
        (Node.srcAttr n).all (fun v => !pyEndsWith ".mp4".data v) = true) →
      word_exists (FetchResult.ok doc) = true ∧
      get_video_urls (FetchResult.ok doc) = Except.ok []) := by
  have hiff : word_exists (FetchResult.ok doc) = true ↔
      find_all_list "video".data doc ≠ [] := by
    simp [word_exists, List.length_pos]
  refine ⟨rfl, rfl, hiff, fun hvid hsrc => ⟨hiff.mpr hvid, ?_⟩⟩
  have hurls : video_urls_of_doc doc = [] := by
    rw [video_urls_of_doc, collect_sources_eq, List.filter_eq_nil_iff]
    intro v hv
    rw [List.mem_filterMap] at hv
    obtain ⟨n, hn, hsome⟩ := hv
    have := hsrc n hn
    rw [hsome, Option.all_some] at this
    simp only [Bool.not_eq_true'] at this
    simp [this]
  rw [get_video_urls, hurls]

/-- Witness for C4 at a document with one bare video element and no
source elements at all. -/
theorem C4_word_exists_witness :
    find_all_list "video".data [Node.elem "video".data none []] ≠ [] ∧
    word_exists (FetchResult.ok [Node.elem "video".data none []]) = true ∧
    get_video_urls (FetchResult.ok [Node.elem "video".data none []]) =
      Except.ok [] := by
  have hvid : find_all_list "video".data [Node.elem "video".data none []] ≠ [] := by
    simp [find_all_list, find_all]
  have hsrc : ∀ n ∈ find_all_list "source".data [Node.elem "video".data none []],
      (Node.srcAttr n).all (fun v => !pyEndsWith ".mp4".data v) = true := by
    intro n hn
    simp [find_all_list, find_all] at hn
  exact ⟨hvid, (C4_word_exists [Node.elem "video".data none []]).2.2.2 hvid hsrc⟩

/-- C5: the URL-extraction step of get_video_urls returns exactly the src
values of the document's source elements whose src ends in .mp4, in
document order, duplicates preserved; the Python truthiness test on src
adds nothing because an empty src never ends in .mp4. -/
theorem C5_extract_urls (doc : List Node) :
    video_urls_of_doc doc = spec_extract_urls doc :=
  collect_sources_eq (find_all_list "source".data doc)

/-- C6: download_all_videos applies download_video to each URL in turn,
produces one per-URL result for every input URL, returns exactly the
successful paths in input order, and never returns more paths than input
URLs, so failures show as a shorter result. -/
theorem C6_download_all (net : Str → NetOutcome) (word : Str) (urls : List Str)
    (force : Bool) (fs : Fs) :
    (download_all_videos net word urls force fs).1 =
      (download_results net word force urls fs).filterMap id ∧
    (download_results net word force urls fs).length = urls.length ∧
    (download_all_videos net word urls force fs).1.length ≤ urls.length := by
  refine ⟨download_all_videos_eq net word force urls fs, download_results_length net word force urls fs, ?_⟩
  rw [download_all_videos_eq net word force urls fs]
  calc ((download_results net word force urls fs).filterMap id).length
      ≤ (download_results net word force urls fs).length :=
        List.length_filterMap_le id _
    _ = urls.length := download_results_length net word force urls fs

/-- C7: the cache filename is a pure function of (word, url) - identical
across calls and runs - of the form safe word, underscore, 8 hex digest
characters, .mp4; and for a fixed word two URLs collide exactly when
their 8-character digests collide, so distinct URLs map to distinct
filenames modulo the accepted hash-width collision risk. -/
theorem C7_cache_filename_deterministic (word u1 u2 : Str) :
    get_cache_filename word u1 =
      safe_word word ++ ['_'] ++ md5hex8 u1 ++ ".mp4".data ∧
    (md5hex8 u1).length = 8 ∧
    (∀ c ∈ md5hex8 u1, isHexDigitChar c = true) ∧
    (get_cache_filename word u1 = get_cache_filename word u2 ↔
      md5hex8 u1 = md5hex8 u2) := by
  refine ⟨rfl, md5hex8_length u1, hexChars_all_hex 8 _, ?_, ?_⟩
  · intro h
    rw [get_cache_filename, get_cache_filename] at h
    exact List.append_cancel_left (List.append_cancel_right h)
  · intro h
    rw [get_cache_filename, get_cache_filename, h]

/-- Witness for C7: distinct digests at the URLs "b" and "c" force
distinct filenames for the word "a". -/
theorem C7_cache_filename_deterministic_witness :
    md5hex8 "b".data ≠ md5hex8 "c".data ∧
    get_cache_filename "a".data "b".data ≠
      get_cache_filename "a".data "c".data := by
  have hiff := (C7_cache_filename_deterministic "a".data "b".data "c".data).2.2.2
  have hne : md5hex8 "b".data ≠ md5hex8 "c".data := by decide
  exact ⟨hne, fun he => hne (hiff.mp he)⟩

/-- C8 counterexample: with the empty word given, the claim's scoping says
only files matching the empty word's prefix pattern may go, but Python
`if word:` treats the empty word like None and clears every cached file:
here a file that does not match the empty word's pattern is deleted and
counted. -/
theorem C8_counterexample :
    (clear_cache (fun _ => true) (some []) ["world_aaaaaaaa.mp4".data]).1 = 1 ∧
    (clear_cache (fun _ => true) (some []) ["world_aaaaaaaa.mp4".data]).2 = [] ∧
    matchesWordGlob [] "world_aaaaaaaa.mp4".data = false := by
  refine ⟨by decide, by decide, by decide⟩

/-- C8 (amended): clear_cache deletes the matching cached .mp4 files,
scoped to the word's filename prefix when a non-empty word is given and
all cached files when the word is absent or empty; each per-file deletion
failure skips only that file, the remaining deletions still happen, and
the returned count is exactly the number of files actually deleted. -/
theorem C8_clear_cache_amended (deletable : Str → Bool) (word : Option Str)
    (fs : Fs) :
    (clear_cache deletable word fs).1 =
      ((clear_targets word fs).filter deletable).length ∧
    (clear_cache deletable word fs).2 =
      fs.filter (fun g => !(decide (g ∈ clear_targets word fs) && deletable g)) ∧
    (∀ w, word = some w → w ≠ [] →
      clear_targets word fs = fs.filter (matchesWordGlob w)) ∧
    ((word = none ∨ word = some []) →
      clear_targets word fs = fs.filter matchesMp4Glob) := by
  refine ⟨?_, ?_, ?_, ?_⟩
  · rw [clear_cache, clear_loop_count]
    omega
  · rw [clear_cache, clear_loop_fs]
  · intro w hw hne
    subst hw
    have hempty : w.isEmpty = false := by
      cases w with
      | nil => exact absurd rfl hne
      | cons a as => rfl
    simp [clear_targets, hempty]
  · rintro (rfl | rfl)
    · rfl
    · simp [clear_targets]

/-- Witness for C8 (amended): one cached file each for "hello" and
"world"; clearing "hello" is scoped to its prefix, deletes exactly the
hello file, returns count 1 and leaves the world file intact. -/
theorem C8_clear_cache_amended_witness :
    "hello".data ≠ [] ∧
    clear_targets (some "hello".data)
        [get_cache_filename "hello".data "u1".data,
          get_cache_filename "world".data "u2".data] =
      List.filter (matchesWordGlob "hello".data)
        [get_cache_filename "hello".data "u1".data,
          get_cache_filename "world".data "u2".data] ∧
    (clear_cache (fun _ => true) (some "hello".data)
        [get_cache_filename "hello".data "u1".data,
          get_cache_filename "world".data "u2".data]).1 = 1 ∧
    (clear_cache (fun _ => true) (some "hello".data)
        [get_cache_filename "hello".data "u1".data,
          get_cache_filename "world".data "u2".data]).2 =
      [get_cache_filename "world".data "u2".data] := by
  refine ⟨by decide,
    (C8_clear_cache_amended (fun _ => true) (some "hello".data) _).2.2.1
      "hello".data rfl (by decide), ?_, ?_⟩
  · rw [(C8_clear_cache_amended (fun _ => true) (some "hello".data) _).1]
    decide
  · rw [(C8_clear_cache_amended (fun _ => true) (some "hello".data) _).2.1]
    decide

/-- C10: word-scoped cache operations select purely by the glob pattern,
so when one word's safe form plus underscore is a prefix of another's,
the longer word's cache files match the shorter word's pattern, appear in
its get_cached_videos listing, and are deleted by its scoped clear_cache. -/
theorem C10_glob_prefix_overlap (w1 w2 url : Str) (fs : Fs)
    (hpre : (safe_word w1 ++ ['_']) <+: safe_word w2) :
    matchesWordGlob w1 (get_cache_filename w2 url) = true ∧
    (get_cache_filename w2 url ∈ fs →
      cache_dir_path ++ get_cache_filename w2 url ∈ get_cached_videos w1 fs) ∧
    get_cache_filename w2 url ∉ (clear_cache (fun _ => true) (some w1) fs).2 := by
  have hsuf : ".mp4".data <:+ get_cache_filename w2 url := by
    rw [get_cache_filename]
    exact List.suffix_append _ _
  have hmatch : matchesWordGlob w1 (get_cache_filename w2 url) = true := by
    have hp : (safe_word w1 ++ ['_']) <+: get_cache_filename w2 url := by
      refine hpre.trans ?_
      rw [get_cache_filename]
      exact ((List.prefix_append _ _).trans (List.prefix_append _ _)).trans
        (List.prefix_append _ _)
    have hlen : (safe_word w1).length + 5 ≤ (get_cache_filename w2 url).length := by
      have h1 : (safe_word w1 ++ ['_']).length ≤ (safe_word w2).length :=
        hpre.length_le
      have hmp4 : (".mp4".data : Str).length = 4 := by decide
      rw [List.length_append] at h1
      rw [get_cache_filename, List.length_append, List.length_append,
        List.length_append, hmp4, md5hex8_length]
      simp only [List.length_singleton] at h1 ⊢
      omega
    rw [matchesWordGlob]
    simp only [Bool.and_eq_true]
    exact ⟨⟨List.isPrefixOf_iff_prefix.mpr hp,
      List.isSuffixOf_iff_suffix.mpr hsuf⟩, decide_eq_true hlen⟩
  refine ⟨hmatch, ?_, ?_⟩
  · intro hmem
    rw [get_cached_videos]
    exact List.mem_map_of_mem _ (List.mem_filter.mpr ⟨hmem, hmatch⟩)
  · intro hmem
    rw [clear_cache, clear_loop_fs, List.mem_filter] at hmem
    obtain ⟨hfs, hpred⟩ := hmem
    have htarget : get_cache_filename w2 url ∈ clear_targets (some w1) fs := by
      rw [clear_targets]
      cases hw : w1.isEmpty with
      | true =>
        simp only [hw, if_pos rfl]
        exact List.mem_filter.mpr ⟨hfs, List.isSuffixOf_iff_suffix.mpr hsuf⟩
      | false =>
        simp only [hw, Bool.false_eq_true, if_false]
        exact List.mem_filter.mpr ⟨hfs, hmatch⟩
    simp only [Bool.and_true, Bool.not_eq_true', decide_eq_false_iff_not] at hpred
    exact hpred htarget

/-- Witness for C10 at the words "hello" and "hello world": the longer
word's cache file is listed and cleared by the shorter word's scope. -/
theorem C10_glob_prefix_overlap_witness :
    ((safe_word "hello".data ++ ['_']) <+: safe_word "hello world".data) ∧
    matchesWordGlob "hello".data
      (get_cache_filename "hello world".data "u".data) = true ∧
    (cache_dir_path ++ get_cache_filename "hello world".data "u".data ∈
      get_cached_videos "hello".data
        [get_cache_filename "hello world".data "u".data]) ∧
    get_cache_filename "hello world".data "u".data ∉
      (clear_cache (fun _ => true) (some "hello".data)
        [get_cache_filename "hello world".data "u".data]).2 := by
  have hp : (safe_word "hello".data ++ ['_']) <+: safe_word "hello world".data :=
    List.isPrefixOf_iff_prefix.mp (by decide)
  have h := C10_glob_prefix_overlap "hello".data "hello world".data "u".data
    [get_cache_filename "hello world".data "u".data] hp
  exact ⟨hp, h.1, h.2.1 (List.mem_cons_self _ _), h.2.2⟩
